import Mathlib

/-
Verification of the deployment script `deploy_app.py` (Hubitat-Frigate).

The script uploads a Groovy app/driver source file into the hub's web code
editor. The shallow embedding below models its pure logic:

  * `containsSub` / `strContains` — Python's substring operator `a in b`;
  * `is_driver`, `component_type`  — the source classifier (line 640);
  * `matchNameAt` / `reSearchName` / `name_match` — the declared-name
    extractor, i.e. Python `re.search` of the pattern
    `name:` `\s*` `["']` `([^"']+)` `["']` over the file text (lines 644-649);
  * `pyReplace` / `component_name` — the filesystem-stem fallback name
    (lines 651-655);
  * `findIter` / `contextOk` / `scanContent` / `scanElems` /
    `find_editor_id` — the editor-id resolver (lines 25-85), with the
    effectful page reads (`page.content()`, `query_selector_all`) passed in
    as `Except`-valued inputs so that the `try/except` behaviour (any
    exception is caught and `None` is returned) is explicit;
  * `cliExit` — the `__main__` exit-status logic (lines 577-696).

Characters that Python lowercases or classifies beyond ASCII are modelled
with Lean's ASCII `Char.toLower` / `Char.isDigit`; all inputs handled by the
script are ASCII Groovy source and hub HTML, where the two agree.
-/

/-- Python's substring containment `needle in hay` over explicit char lists
(contiguous substring; the empty needle is contained in everything). -/
def containsSub (needle : List Char) : List Char → Bool
  | [] => needle.isEmpty
  | c :: t => needle.isPrefixOf (c :: t) || containsSub needle t

/-- Python's `needle in hay` on strings. -/
def strContains (needle hay : String) : Bool :=
  containsSub needle.data hay.data

/-- Python's `str.lower()` (ASCII). -/
def lowerL (l : List Char) : List Char :=
  l.map Char.toLower

/-- Classifier, deploy_app.py line 640:
`is_driver = 'capability "' in code or "capability '" in code`.
(`\x22` is the double quote, `\x27` the single quote.) -/
def is_driver (code : String) : Bool :=
  strContains ("capability \x22") code || strContains ("capability \x27") code

/-- Classifier result, deploy_app.py line 641:
`component_type = "driver" if is_driver else "app"`. -/
def component_type (code : String) : String :=
  if is_driver code then "driver" else "app"

/-- The double-quote character. -/
def quoteD : Char := Char.ofNat 34

/-- The single-quote character. -/
def quoteS : Char := Char.ofNat 39

/-- A character matched by the regex class `["']`. -/
def isQuote (c : Char) : Bool := c == quoteD || c == quoteS

/-- A character matched by the regex class `\s` (ASCII: space, tab,
newline, carriage return, vertical tab, form feed). -/
def isPySpace (c : Char) : Bool :=
  c == ' ' || c == '\t' || c == '\n' || c == '\r' ||
  c == Char.ofNat 11 || c == Char.ofNat 12

/-- One anchored attempt of the regex `name:` `\s*` `["']` `([^"']+)` `["']`
at the head of the text (deploy_app.py lines 646/649): the literal `name:`,
then greedy whitespace, an opening quote, a nonempty greedy run of
non-quote characters (the capture), and a closing quote (either kind).
Greedy matching needs no backtracking here: `\s*` stops exactly at the
first non-space and `[^"']+` stops exactly at the next quote. -/
def matchNameAt : List Char → Option String
  | 'n' :: 'a' :: 'm' :: 'e' :: ':' :: rest =>
    match rest.dropWhile isPySpace with
    | [] => none
    | q :: r3 =>
      if isQuote q then
        let body := r3.takeWhile (fun c => !(isQuote c))
        if body.isEmpty then none
        else
          match r3.dropWhile (fun c => !(isQuote c)) with
          | [] => none
          | _ :: _ => some (String.mk body)
      else none
  | _ => none

/-- `re.search` semantics for the name pattern: try every start position
left to right, return the first match's capture. -/
def reSearchName : List Char → Option String
  | [] => none
  | c :: t =>
    match matchNameAt (c :: t) with
    | some s => some s
    | none => reSearchName t

/-- Name extraction, deploy_app.py lines 644-649: both the app branch and
the driver branch run the same `re.search(r'name:\s*["\x27]([^"\x27]+)["\x27]', code)`. -/
def name_match (code : String) : Option String :=
  if is_driver code then reSearchName code.data else reSearchName code.data

/-- Fuel-driven core of Python's `str.replace(old, new)`: scan left to
right, replacing non-overlapping occurrences of `old`. The fuel starts at
the text length, which bounds the number of steps since every step
consumes at least one character. (Python's special case of an empty `old`
is not used by the script and is not modelled: an empty `old` here
replaces nothing.) -/
def pyReplaceAux (old new : List Char) : Nat → List Char → List Char
  | 0, s => s
  | _ + 1, [] => []
  | fuel + 1, c :: t =>
    if !old.isEmpty && old.isPrefixOf (c :: t) then
      new ++ pyReplaceAux old new fuel (t.drop (old.length - 1))
    else
      c :: pyReplaceAux old new fuel t

/-- Python's `str.replace(old, new)` on char lists. -/
def pyReplace (old new s : List Char) : List Char :=
  pyReplaceAux old new s.length s

/-- Component name used for auto-discovery, deploy_app.py lines 651-655:
the extracted declared name if the regex matched, else the file stem with
`-` and `_` replaced by spaces
(`code_path.stem.replace("-", " ").replace("_", " ")`). -/
def component_name (code : String) (stem : String) : String :=
  match name_match code with
  | some n => n
  | none =>
    String.mk (pyReplace ("_".data) (" ".data) (pyReplace ("-".data) (" ".data) stem.data))

/-- The literal text of the f-string `/\x7bct\x7d/editor/`, used both as the
fixed part of the editor-link regex and as the substring tested against an
element's href. -/
def editorPre (ct : String) : List Char :=
  ("/" ++ ct ++ "/editor/").data

/-- One anchored attempt of the regex `/` `ct` `/editor/` `(\d+)` at the head
of the text: the literal prefix then a nonempty greedy digit run. Returns
the total matched length and the captured digit string. -/
def matchEditorAt (ct : String) (cs : List Char) : Option (Nat × String) :=
  if (editorPre ct).isPrefixOf cs then
    let ds := (cs.drop (editorPre ct).length).takeWhile Char.isDigit
    if ds.isEmpty then none
    else some ((editorPre ct).length + ds.length, String.mk ds)
  else none

/-- Fuel-driven core of `re.finditer(rf'/\x7bct\x7d/editor/(\d+)', content)`
(deploy_app.py lines 54-55): scan left to right, emitting non-overlapping
matches as (start, end, captured id) and resuming after each match's end.
The fuel starts at the text length, which bounds the number of steps since
every step consumes at least one character. -/
def findIterAux (ct : String) : Nat → List Char → Nat → List (Nat × Nat × String)
  | 0, _, _ => []
  | _ + 1, [], _ => []
  | fuel + 1, c :: rest, pos =>
    match matchEditorAt ct (c :: rest) with
    | some (len, digits) =>
      (pos, pos + len, digits) :: findIterAux ct fuel (rest.drop (len - 1)) (pos + len)
    | none => findIterAux ct fuel rest (pos + 1)

/-- All matches of the editor-link pattern in the page content. -/
def findIter (ct : String) (cs : List Char) : List (Nat × Nat × String) :=
  findIterAux ct cs.length cs 0

/-- Context test for one match, deploy_app.py lines 59-64: slice the content
from `max(0, start - 200)` to `min(len(content), end + 200)` and check
`name.lower() in context.lower()`. -/
def contextOk (cs : List Char) (name : String) (m : Nat × Nat × String) : Bool :=
  let s := m.1 - 200
  let e := min cs.length (m.2.1 + 200)
  containsSub (lowerL name.data) (lowerL ((cs.drop s).take (e - s)))

/-- Content scan of find_editor_id, deploy_app.py lines 54-66: walk the
editor-link matches in order and return the captured id of the first one
whose surrounding context contains the lower-cased name. -/
def scanContent (ct : String) (content : String) (name : String) : Option String :=
  ((findIter ct content.data).find? (contextOk content.data name)).map (fun m => m.2.2)

/-- One anchored attempt of `/editor/` `(\d+)` at the head of the text. -/
def matchSlashEditorAt (cs : List Char) : Option String :=
  let pre := ("/editor/").data
  if pre.isPrefixOf cs then
    let ds := (cs.drop pre.length).takeWhile Char.isDigit
    if ds.isEmpty then none else some (String.mk ds)
  else none

/-- `re.search(r'/editor/(\d+)', href)` (deploy_app.py line 75): first
position, left to right, where the pattern matches. -/
def searchEditorNum : List Char → Option String
  | [] => none
  | c :: t =>
    match matchSlashEditorAt (c :: t) with
    | some d => some d
    | none => searchEditorNum t

/-- A scraped page element (one of `a, tr, td`): its inner text and its
`href` attribute (the script substitutes the empty string when absent). -/
structure Elem where
  text : String
  href : String
deriving DecidableEq

/-- Whether an element makes the fallback scan return: its text contains
the lower-cased name, its href contains `/ct/editor/`, and the href has a
digit run after some `/editor/`. -/
def elemHit (ct : String) (name : String) (e : Elem) : Bool :=
  containsSub (lowerL name.data) (lowerL e.text.data) &&
  containsSub (editorPre ct) e.href.data &&
  (searchEditorNum e.href.data).isSome

/-- Element fallback scan of find_editor_id, deploy_app.py lines 69-79: for
each element in order, if the name is in its text (case-insensitively) and
`/ct/editor/` is in its href, return the first digit run after `/editor/`
in the href; if that regex finds nothing, keep scanning. -/
def scanElems (ct : String) (name : String) : List Elem → Option String
  | [] => none
  | e :: rest =>
    if containsSub (lowerL name.data) (lowerL e.text.data) &&
        containsSub (editorPre ct) e.href.data then
      match searchEditorNum e.href.data with
      | some d => some d
      | none => scanElems ct name rest
    else scanElems ct name rest

/-- The page reads find_editor_id performs, each of which may raise: the
navigation plus `page.content()` read (line 41/50), and the
`query_selector_all` read (line 69). An `Except.error` input stands for a
raised exception at that step. -/
structure PageView where
  contentRes : Except String String
  elementsRes : Except String (List Elem)

/-- find_editor_id, deploy_app.py lines 25-85: content scan first, element
scan second; the whole body sits in `try/except Exception`, so any raised
exception yields `None`, as does finding nothing. -/
def find_editor_id (ct : String) (pv : PageView) (name : String) : Option String :=
  match pv.contentRes with
  | .error _ => none
  | .ok content =>
    match scanContent ct content name with
    | some i => some i
    | none =>
      match pv.elementsRes with
      | .error _ => none
      | .ok elems => scanElems ct name elems

/-- The branch outcomes of the `__main__` block that determine the exit
status (deploy_app.py lines 577-696): whether at least one argument was
given, whether a code path was parsed, whether a URL argument was given,
the `--auto` flag, whether the code file exists, the auto-discovery result
(`Except.error` for a raised exception, else find_editor_id's result), and
deploy_app's boolean result. -/
structure CliInput where
  hasArgs : Bool
  codePathGiven : Bool
  urlGiven : Bool
  autoFlag : Bool
  fileExists : Bool
  discovery : Except String (Option String)
  deployResult : Bool

/-- Exit status of the `__main__` block, deploy_app.py lines 577-696:
usage error, missing code path, auto-discovery failures and a missing URL
all `sys.exit(1)`; otherwise `sys.exit(0 if success else 1)` around the
deploy_app call (line 695-696). -/
def cliExit (i : CliInput) : Nat :=
  if !i.hasArgs then 1
  else if !i.codePathGiven then 1
  else if i.autoFlag && !i.urlGiven then
    if !i.fileExists then 1
    else
      match i.discovery with
      | .error _ => 1
      | .ok none => 1
      | .ok (some _) => if i.deployResult then 0 else 1
  else if !i.urlGiven then 1
  else if i.deployResult then 0 else 1

/-- Modelled from the spec: the save endpoint's JSON response
`\x7bsuccess, version?, message?, errors?\x7d` (spec section 6). The direct-API
upload path the spec documents (section 4.4) is not under src/ — the file
there only has the browser-editor variant — so its response shape is taken
from the spec's endpoint table. -/
structure SaveResponse where
  success : Bool
  version : Option Nat
  message : Option String
  errors : Option (List String)

/-- Outcome of the upload transaction as the spec describes it: success
with the reported new version, or failure with the response's message and
optional structured compiler error list. -/
inductive DeployOutcome where
  | ok (newVersion : Nat)
  | failed (message : Option String) (errors : Option (List String))
deriving DecidableEq

/-- Modelled from the spec: response interpretation of the direct-API
upload (spec section 4.4 step 4, missing from src/): a truthy `success`
denotes success, reporting the response's updated version when present and
the previous version plus one otherwise; a falsy `success` yields failure
carrying the message and the optional error list. -/
def interpret_response (prevVersion : Nat) (r : SaveResponse) : DeployOutcome :=
  if r.success then .ok (r.version.getD (prevVersion + 1))
  else .failed r.message r.errors

/-- Modelled from the spec: the GET `/ajax/code` response; a missing
version defaults to 0 (spec section 4.4 step 2). -/
structure CodeResponse where
  version : Option Nat

/-- A network request of the direct-API upload transaction. -/
inductive HubRequest where
  | getCode (id : Nat)
  | postSave (id : Nat) (version : Nat) (source : String)
deriving DecidableEq

/-- Modelled from the spec: the direct-API upload transaction (spec
section 4.4, missing from src/). Each network step's result arrives as an
`Except` input; the function returns the list of requests it issued, in
order, together with the outcome. A transport error at either step ends
the transaction at once with that error surfaced; only a successful GET is
followed by the single POST, tagged with the version just read (missing
version defaults to 0). -/
def deploy_transaction (id : Nat) (source : String)
    (getRes : Except String CodeResponse)
    (postRes : Except String SaveResponse) :
    List HubRequest × Except String DeployOutcome :=
  match getRes with
  | .error e => ([.getCode id], .error e)
  | .ok c =>
    match postRes with
    | .error e => ([.getCode id, .postSave id (c.version.getD 0) source], .error e)
    | .ok r =>
      ([.getCode id, .postSave id (c.version.getD 0) source],
       .ok (interpret_response (c.version.getD 0) r))

/-- The hub's persisted state for one type id: its revision counter and
its saved source (spec sections 3 and 4.4). -/
structure HubEntry where
  version : Nat
  source : String
deriving DecidableEq

/-- Modelled from the spec: how the POST step can end (spec section 4.4):
interrupted before the hub applied it, rejected by the hub (compile
failure), or accepted with an optional reported new version. -/
inductive PostFate where
  | interrupted
  | rejected (message : Option String) (errors : Option (List String))
  | accepted (newVersion : Option Nat)

/-- Modelled from the spec: the hub applies the save as a single atomic
request (spec section 4.4, "no partial/corrupt state possible since the
write is a single atomic request from this component's perspective"): an
interrupted or rejected save leaves the entry untouched, an accepted save
installs the new source whole. -/
def hub_after (entry : HubEntry) (newSource : String) (fate : PostFate) : HubEntry :=
  match fate with
  | .interrupted => entry
  | .rejected _ _ => entry
  | .accepted v => { version := v.getD (entry.version + 1), source := newSource }

/-- C3: for every source text, the classifier returns `driver` exactly when
the text contains the literal substring `capability "` or `capability '`,
and returns `app` otherwise; as a Lean function it is deterministic, total
and effect-free. -/
theorem component_type_spec (code : String) :
    (component_type code = "driver" ↔
      (strContains ("capability \x22") code = true ∨
        strContains ("capability \x27") code = true)) ∧
    (component_type code = "app" ↔
      ¬(strContains ("capability \x22") code = true ∨
        strContains ("capability \x27") code = true)) := by
  unfold component_type is_driver
  by_cases h1 : strContains ("capability \x22") code = true <;>
    by_cases h2 : strContains ("capability \x27") code = true <;>
      simp [h1, h2]

/-- C5: a truthy `success` field yields a success outcome whose reported
version is the response's updated version number when present and the
previous version plus one otherwise; a falsy `success` yields a failure
outcome carrying the response's message and its optional list of
structured compiler error strings verbatim. -/
theorem interpret_response_spec (prev vn : Nat) (v : Option Nat)
    (m : Option String) (e : Option (List String)) :
    interpret_response prev ⟨true, some vn, m, e⟩ = .ok vn ∧
    interpret_response prev ⟨true, none, m, e⟩ = .ok (prev + 1) ∧
    interpret_response prev ⟨false, v, m, e⟩ = .failed m e :=
  ⟨rfl, rfl, rfl⟩

/-- C6: the process exits with code 0 exactly when control reaches the
deploy call and it succeeds, and with code 1 on every failure path
(missing arguments, missing code path, missing code file, failed or
erroring auto-discovery, missing URL, failed deploy). -/
theorem cli_exit_spec (i : CliInput) :
    (cliExit i = 0 ∨ cliExit i = 1) ∧
    (cliExit i = 0 ↔ (i.hasArgs = true ∧ i.codePathGiven = true ∧
      (i.urlGiven = true ∨ (i.autoFlag = true ∧ i.fileExists = true ∧
        ∃ s, i.discovery = Except.ok (some s))) ∧
      i.deployResult = true)) := by
  obtain ⟨ha, hc, hu, hauto, hf, hd, hr⟩ := i
  cases ha <;> cases hc <;> cases hu <;> cases hauto <;> cases hf <;> cases hr <;>
    (try rcases hd with e | o) <;> (try cases o) <;> simp [cliExit]

/-- C7: a transport error at either network step of the upload transaction
terminates the operation immediately with that error surfaced verbatim; no
step is retried — the issued request trace never repeats a request, a GET
error leaves the POST unsent, and the full run issues exactly one GET
followed by one POST. -/
theorem deploy_no_retry_spec (id : Nat) (src : String) (e : String)
    (c : CodeResponse) (p : Except String SaveResponse) (r : SaveResponse) :
    (deploy_transaction id src (.error e) p = ([.getCode id], .error e)) ∧
    (deploy_transaction id src (.ok c) (.error e) =
      ([.getCode id, .postSave id (c.version.getD 0) src], .error e)) ∧
    (deploy_transaction id src (.ok c) (.ok r) =
      ([.getCode id, .postSave id (c.version.getD 0) src],
        .ok (interpret_response (c.version.getD 0) r))) ∧
    (deploy_transaction id src (.error e) p).1.Nodup ∧
    (deploy_transaction id src (.ok c) p).1.Nodup := by
  refine ⟨rfl, rfl, rfl, by simp [deploy_transaction], ?_⟩
  cases p <;> simp [deploy_transaction]

/-- C8: the hub state after a deploy attempt is all-or-nothing — an
interrupted or rejected save leaves the pre-existing entry exactly as it
was, and an accepted save installs the new source whole; no intermediate
persisted state exists. -/
theorem save_atomic_spec (entry : HubEntry) (ns : String) (fate : PostFate) :
    hub_after entry ns fate = entry ∨ ∃ v, hub_after entry ns fate = ⟨v, ns⟩ := by
  cases fate with
  | interrupted => exact Or.inl rfl
  | rejected m er => exact Or.inl rfl
  | accepted v => exact Or.inr ⟨v.getD (entry.version + 1), rfl⟩

/-- C9: find_editor_id never propagates an exception: a raised exception in
the navigation/content read yields `none`, a raised exception in the
element read yields whatever the content scan alone produced (so `none`
when that scan found nothing), and on every input its result is an
editor-id string or `none`. -/
theorem find_editor_id_catches_errors (ct name msg content : String)
    (er : Except String (List Elem)) (pv : PageView) :
    find_editor_id ct ⟨Except.error msg, er⟩ name = none ∧
    find_editor_id ct ⟨Except.ok content, Except.error msg⟩ name =
      scanContent ct content name ∧
    ((find_editor_id ct pv name).isSome = true ∨ find_editor_id ct pv name = none) := by
  refine ⟨rfl, ?_, ?_⟩
  · cases h : scanContent ct content name <;> simp [find_editor_id, h]
  · cases h : find_editor_id ct pv name
    · exact Or.inr rfl
    · exact Or.inl (by simp [h])

/-- A boolean `all`-of-negations over a list is the same as `find?`
producing nothing. -/
theorem all_not_iff_find_none {α : Type} (p : α → Bool) (l : List α) :
    l.all (fun x => !(p x)) = true ↔ l.find? p = none := by
  simp [List.all_eq_true, List.find?_eq_none]

/-- The element fallback scan returns nothing exactly when no element
satisfies the full hit condition (matching text, matching href, and a
digit run after `/editor/` in the href). -/
theorem scanElems_none_iff (ct name : String) (l : List Elem) :
    scanElems ct name l = none ↔ l.all (fun e => !(elemHit ct name e)) = true := by
  induction l with
  | nil => simp [scanElems]
  | cons e rest ih =>
    by_cases h1 : containsSub (lowerL name.data) (lowerL e.text.data) = true
    · by_cases h2 : containsSub (editorPre ct) e.href.data = true
      · cases hs : searchEditorNum e.href.data with
        | none =>
          have hhit : elemHit ct name e = false := by simp [elemHit, hs]
          simp [scanElems, h1, h2, hs, hhit, List.all_cons, ih]
        | some d =>
          have hhit : elemHit ct name e = true := by simp [elemHit, h1, h2, hs]
          simp [scanElems, h1, h2, hs, hhit, List.all_cons]
      · rw [Bool.not_eq_true] at h2
        have hhit : elemHit ct name e = false := by simp [elemHit, h2]
        simp [scanElems, h1, h2, hhit, List.all_cons, ih]
    · rw [Bool.not_eq_true] at h1
      have hhit : elemHit ct name e = false := by simp [elemHit, h1]
      simp [scanElems, h1, hhit, List.all_cons, ih]

/-- C1 (amended): the resolver has no exact-match precedence — when the
editor-link matches of the page content are scanned, the first match whose
surrounding 200-character context contains the lower-cased query wins, and
its captured id is returned, whatever the elements would say. -/
theorem find_editor_id_first_context_match (ct content name : String)
    (er : Except String (List Elem)) (m : Nat × Nat × String)
    (h : (findIter ct content.data).find? (contextOk content.data name) = some m) :
    find_editor_id ct ⟨Except.ok content, er⟩ name = some m.2.2 := by
  have hs : scanContent ct content name = some m.2.2 := by
    unfold scanContent
    rw [h]
    rfl
  simp [find_editor_id, hs]

/-- C1 witness: on a concrete page whose first (and only) editor link has
the query in context, the resolver returns that link's id. -/
theorem find_editor_id_first_context_match_witness :
    find_editor_id ("app") ⟨Except.ok ("/app/editor/7 frigate"), Except.ok []⟩
      ("Frigate") = some ("7") :=
  find_editor_id_first_context_match ("app") ("/app/editor/7 frigate") ("Frigate")
    (Except.ok []) (0, 13, "7") (by decide)

/-- C1 counterexample: the page lists entry 1 named `Big Frigate Camera`
before entry 2 named exactly `Frigate Camera`; for the query
`Frigate Camera` the code returns id 1 (the earlier substring container),
not the exactly-matching entry 2 — exact match does not take precedence. -/
theorem find_editor_id_exact_match_loses :
    strContains (">Frigate Camera<")
      ("<a href=\x22/app/editor/1\x22>Big Frigate Camera</a><a href=\x22/app/editor/2\x22>Frigate Camera</a>") = true ∧
    strContains ("/app/editor/2")
      ("<a href=\x22/app/editor/1\x22>Big Frigate Camera</a><a href=\x22/app/editor/2\x22>Frigate Camera</a>") = true ∧
    find_editor_id ("app")
      ⟨Except.ok ("<a href=\x22/app/editor/1\x22>Big Frigate Camera</a><a href=\x22/app/editor/2\x22>Frigate Camera</a>"),
        Except.ok []⟩ ("Frigate Camera") = some ("1") := by
  decide

/-- C2 (amended): the resolver returns `none` exactly when no editor-link
match of the content has the query in its context and no page element
satisfies the fallback hit condition; when one or more candidates match it
returns the first, so multiple matches are never reported as ambiguous. -/
theorem find_editor_id_none_iff (ct content name : String) (elems : List Elem) :
    find_editor_id ct ⟨Except.ok content, Except.ok elems⟩ name = none ↔
      ((findIter ct content.data).all (fun m => !(contextOk content.data name m)) = true ∧
        elems.all (fun e => !(elemHit ct name e)) = true) := by
  cases h : scanContent ct content name with
  | some i =>
    constructor
    · intro hL
      simp [find_editor_id, h] at hL
    · rintro ⟨h1, -⟩
      have hh := h
      unfold scanContent at hh
      obtain ⟨m, hm, -⟩ := Option.map_eq_some'.mp hh
      rw [all_not_iff_find_none] at h1
      rw [h1] at hm
      cases hm
  | none =>
    have hh := h
    unfold scanContent at hh
    have hf := Option.map_eq_none'.mp hh
    have hfe : find_editor_id ct ⟨Except.ok content, Except.ok elems⟩ name =
        scanElems ct name elems := by
      simp [find_editor_id, h]
    rw [hfe, scanElems_none_iff]
    have h1 : (findIter ct content.data).all
        (fun m => !(contextOk content.data name m)) = true :=
      (all_not_iff_find_none _ _).mpr hf
    simp [h1]

/-- C2 counterexample: the spec's own ambiguity test — a page listing
`Frigate A` (id 1) and `Frigate B` (id 2), query `Frigate`. Two editor-link
matches have the query in context, yet the code returns id 1 instead of
failing with an ambiguity report. -/
theorem find_editor_id_ambiguous_returns_first :
    ((findIter ("app")
        ("<a href=\x22/app/editor/1\x22>Frigate A</a><a href=\x22/app/editor/2\x22>Frigate B</a>").data).filter
      (contextOk ("<a href=\x22/app/editor/1\x22>Frigate A</a><a href=\x22/app/editor/2\x22>Frigate B</a>").data
        ("Frigate"))).length = 2 ∧
    find_editor_id ("app")
      ⟨Except.ok ("<a href=\x22/app/editor/1\x22>Frigate A</a><a href=\x22/app/editor/2\x22>Frigate B</a>"),
        Except.ok []⟩ ("Frigate") = some ("1") := by
  decide

/-- Dropping one more element of a cons cell. -/
theorem drop_succ_cons_eq (c : Char) (t : List Char) (n : Nat) :
    (c :: t).drop (n + 1) = t.drop n := rfl

/-- The name search returns nothing exactly when the anchored pattern
fails at every start position. -/
theorem reSearchName_none_iff (cs : List Char) :
    reSearchName cs = none ↔ ∀ i, matchNameAt (cs.drop i) = none := by
  induction cs with
  | nil =>
    constructor
    · intro _ i
      rw [List.drop_nil]
      decide
    · intro _
      rfl
  | cons c t ih =>
    cases h : matchNameAt (c :: t) with
    | some s =>
      have hstep : reSearchName (c :: t) = some s := by
        show (match matchNameAt (c :: t) with
          | some x => some x
          | none => reSearchName t) = some s
        rw [h]
      rw [hstep]
      constructor
      · intro hL
        cases hL
      · intro hR
        have h0 := hR 0
        rw [List.drop_zero, h] at h0
        cases h0
    | none =>
      have hstep : reSearchName (c :: t) = reSearchName t := by
        show (match matchNameAt (c :: t) with
          | some x => some x
          | none => reSearchName t) = reSearchName t
        rw [h]
      rw [hstep, ih]
      constructor
      · intro hL i
        cases i with
        | zero =>
          rw [List.drop_zero]
          exact h
        | succ n =>
          rw [drop_succ_cons_eq]
          exact hL n
      · intro hR i
        have := hR (i + 1)
        rwa [drop_succ_cons_eq] at this

/-- The name search returns a capture exactly when the anchored pattern
produces it at some start position while failing at every earlier one —
`re.search` leftmost-match semantics. -/
theorem reSearchName_some_iff (cs : List Char) (s : String) :
    reSearchName cs = some s ↔
      ∃ i, matchNameAt (cs.drop i) = some s ∧
        ∀ j < i, matchNameAt (cs.drop j) = none := by
  induction cs generalizing s with
  | nil =>
    constructor
    · intro hL
      cases hL
    · rintro ⟨i, hi, -⟩
      rw [List.drop_nil] at hi
      exact Option.noConfusion hi
  | cons c t ih =>
    cases h : matchNameAt (c :: t) with
    | some s0 =>
      have hstep : reSearchName (c :: t) = some s0 := by
        show (match matchNameAt (c :: t) with
          | some x => some x
          | none => reSearchName t) = some s0
        rw [h]
      rw [hstep]
      constructor
      · intro hL
        refine ⟨0, ?_, fun j hj => absurd hj (Nat.not_lt_zero j)⟩
        rw [List.drop_zero, h]
        exact hL
      · rintro ⟨i, hi, hj⟩
        cases i with
        | zero =>
          rw [List.drop_zero, h] at hi
          exact hi
        | succ n =>
          have h0 := hj 0 (Nat.succ_pos n)
          rw [List.drop_zero, h] at h0
          cases h0
    | none =>
      have hstep : reSearchName (c :: t) = reSearchName t := by
        show (match matchNameAt (c :: t) with
          | some x => some x
          | none => reSearchName t) = reSearchName t
        rw [h]
      rw [hstep, ih]
      constructor
      · rintro ⟨i, hi, hj⟩
        refine ⟨i + 1, ?_, ?_⟩
        · rwa [drop_succ_cons_eq]
        · intro j hjlt
          cases j with
          | zero =>
            rw [List.drop_zero]
            exact h
          | succ n =>
            rw [drop_succ_cons_eq]
            exact hj n (Nat.lt_of_succ_lt_succ hjlt)
      · rintro ⟨i, hi, hj⟩
        cases i with
        | zero =>
          rw [List.drop_zero, h] at hi
          cases hi
        | succ n =>
          rw [drop_succ_cons_eq] at hi
          refine ⟨n, hi, fun j hjlt => ?_⟩
          have := hj (j + 1) (Nat.succ_lt_succ hjlt)
          rwa [drop_succ_cons_eq] at this

/-- C4 (amended): the extractor applies the single loose pattern
`name:` `\s*` `["']` `([^"']+)` `["']` with leftmost-match semantics: it
yields the capture of the first position where the pattern matches and
nothing exactly when it matches nowhere; there is no separate
`definition(name: ...)`-first precedence. -/
theorem name_match_leftmost (code : String) :
    (name_match code = none ↔ ∀ i, matchNameAt (code.data.drop i) = none) ∧
    (∀ s, name_match code = some s ↔
      ∃ i, matchNameAt (code.data.drop i) = some s ∧
        ∀ j < i, matchNameAt (code.data.drop j) = none) := by
  have he : name_match code = reSearchName code.data := by
    unfold name_match
    split <;> rfl
  exact ⟨by rw [he]; exact reSearchName_none_iff _,
    fun s => by rw [he]; exact reSearchName_some_iff _ s⟩

/-- C4 counterexample: the text contains `definition(name: "Foo")`, but an
earlier standalone `name: "Bar"` occurs, and the extractor yields `Bar`,
not `Foo` — the `definition(...)`-shaped pattern does not take
precedence. -/
theorem name_match_definition_loses :
    strContains ("definition(name: \x22Foo\x22)")
      ("name: \x22Bar\x22 and definition(name: \x22Foo\x22)") = true ∧
    name_match ("name: \x22Bar\x22 and definition(name: \x22Foo\x22)") = some ("Bar") := by
  decide

/-- Replacing a single-character pattern by a single character is a
character-wise map, for any sufficient fuel. -/
theorem pyReplaceAux_single (a b : Char) :
    ∀ (fuel : Nat) (l : List Char), l.length ≤ fuel →
      pyReplaceAux [a] [b] fuel l = l.map (fun c => if c = a then b else c) := by
  intro fuel
  induction fuel with
  | zero =>
    intro l hl
    rw [List.eq_nil_of_length_eq_zero (Nat.le_zero.mp hl)]
    rfl
  | succ n ih =>
    intro l hl
    cases l with
    | nil => rfl
    | cons c t =>
      have ht : t.length ≤ n := by
        simp [List.length_cons] at hl
        omega
      by_cases hca : c = a
      · subst hca
        simp [pyReplaceAux, List.isPrefixOf, ih t ht]
      · simp [pyReplaceAux, List.isPrefixOf, Ne.symm hca, hca, ih t ht]

/-- Substituting `-` by a space and then `_` by a space is the combined
substitution. -/
theorem map_subst_comp (l : List Char) :
    (l.map (fun c => if c = '-' then ' ' else c)).map
        (fun c => if c = '_' then ' ' else c) =
      l.map (fun c => if c = '-' ∨ c = '_' then ' ' else c) := by
  induction l with
  | nil => rfl
  | cons c t ih =>
    simp only [List.map_cons, ih]
    congr 1
    by_cases h1 : c = '-'
    · simp [h1]
    · by_cases h2 : c = '_' <;> simp [h1, h2]

/-- C10: when the name pattern matches nowhere in the source, the
component name for auto-discovery is the file stem with every `-` and
every `_` replaced by a single space. -/
theorem component_name_fallback (code : String) (stem : String)
    (h : name_match code = none) :
    component_name code stem =
      String.mk (stem.data.map (fun c => if c = '-' ∨ c = '_' then ' ' else c)) := by
  unfold component_name
  rw [h]
  unfold pyReplace
  rw [show ("-").data = ['-'] from rfl, show ("_").data = ['_'] from rfl,
    show (" ").data = [' '] from rfl]
  rw [pyReplaceAux_single '-' ' ' _ _ (le_refl _)]
  rw [pyReplaceAux_single '_' ' ' _ _ (le_refl _)]
  rw [map_subst_comp]

/-- C10 witness: a source with no name pattern and the stem
`Frigate_Camera-Device` produce the space-substituted component name. -/
theorem component_name_fallback_witness :
    name_match ("no declared component here") = none ∧
    component_name ("no declared component here") ("Frigate_Camera-Device") =
      String.mk (("Frigate_Camera-Device").data.map
        (fun c => if c = '-' ∨ c = '_' then ' ' else c)) :=
  ⟨by decide,
    component_name_fallback ("no declared component here") ("Frigate_Camera-Device")
      (by decide)⟩
